import Mathlib

/-!
Shallow embedding of the task-tracking repository (`seed.py`, `manage_alt.py`):
the relational store (status / users / tasks), the CLI commands of
`manage_alt.py`, and the deterministic synthetic generator of `seed.py`.
Machine randomness (Python's seeded `random` module and the seeded `Faker`
library) is modelled by explicit deterministic streams threaded through the
definitions: the claims under verification depend only on the streams being
deterministic functions of the seed and on the ranges of the drawn values,
never on the exact pseudo-random algorithm.
-/

namespace TaskDB

/-- Model of the seeded pseudo-random stream of Python's `random` module
(one LCG step; the exact generator is irrelevant to every claim, only
determinism and value ranges matter). -/
def rngNext (s : Nat) : Nat := (1103515245 * s + 12345) % 2 ^ 31

/-- Model of drawing an integer index below `n` (as `random.sample` /
`random.choice` do internally): returns the draw and the advanced state. -/
def randBelow (s n : Nat) : Nat × Nat := (rngNext s % n, rngNext s)

/-- Model of `random.random()`: a rational in `[0, 1)` plus the advanced
state. -/
def rngUnit (s : Nat) : ℚ × Nat := (((rngNext s % 2 ^ 20 : Nat) : ℚ) / (2 ^ 20 : ℚ), rngNext s)

/-- Model of `random.uniform(a, b)` as CPython computes it:
`a + (b - a) * random.random()`. -/
def pyUniform (s : Nat) (a b : ℚ) : ℚ × Nat :=
  let p := rngUnit s
  (a + (b - a) * p.1, p.2)

/-- Model of the seeded `Faker` stream advancing one step. -/
def fakeNext (s : Nat) : Nat := rngNext (s + 1)

/-- Model of `fake.name()` read at the current Faker state. -/
def fakeName (s : Nat) : String := "User " ++ toString s

/-- Model of `fake.unique.email().lower()` read at the current Faker state
(already lower-case, unique per state). -/
def fakeEmail (s : Nat) : String := "user" ++ toString s ++ "@example.com"

/-- Model of `fake.sentence(nb_words=4).rstrip(".")`. -/
def fakeSentence (s : Nat) : String := "Sentence " ++ toString s

/-- Model of `fake.paragraph(nb_sentences=2)`: always a non-empty string. -/
def fakeParagraph (s : Nat) : String := "Paragraph " ++ toString s

/-- One row of the `status` table (`id INTEGER PRIMARY KEY, name TEXT UNIQUE`). -/
structure StatusRow where
  id : Nat
  name : String
deriving DecidableEq

/-- One row of the `users` table. Timestamps are modelled as naturals
(SQLite's text timestamps compare chronologically). -/
structure UserRow where
  id : Nat
  fullname : String
  email : String
  created_at : Nat
deriving DecidableEq

/-- One row of the `tasks` table of `create_tables_alt.sql`:
`title`, optional `description`, foreign keys `status_id` / `user_id`, and
the two timestamp columns with default "now". -/
structure TaskRow where
  id : Nat
  title : String
  description : Option String
  status_id : Nat
  user_id : Nat
  created_at : Nat
  updated_at : Nat
deriving DecidableEq

/-- The whole relational store (the SQLite database file). -/
structure Store where
  status : List StatusRow
  users : List UserRow
  tasks : List TaskRow
deriving DecidableEq

/-- A store holding freshly created, empty tables (what `bootstrap_schema`
leaves behind on a new file). -/
def freshStore : Store := ⟨[], [], []⟩

/-- SQLite rowid assignment: one more than the largest id in use. -/
def nextId (ids : List Nat) : Nat := ids.foldr max 0 + 1

/-- Next task id the store will assign. -/
def nextTaskId (st : Store) : Nat := nextId (st.tasks.map (·.id))

/-- Next user id the store will assign. -/
def nextUserId (st : Store) : Nat := nextId (st.users.map (·.id))

/-- Next status id the store will assign. -/
def nextStatusId (st : Store) : Nat := nextId (st.status.map (·.id))

/-- Embedding of `status_id_by_name` (`manage_alt.py`): `SELECT id FROM
status WHERE name = ?` and, on a miss, `SystemExit` carrying the available
status names from `SELECT name FROM status ORDER BY name`. -/
def status_id_by_name (st : Store) (name : String) : Except (List String) Nat :=
  match st.status.find? (fun r => r.name == name) with
  | some row => .ok row.id
  | none => .error (List.insertionSort (· ≤ ·) (st.status.map (·.name)))

/-- Embedding of `ensure_user_exists`: `SELECT ... FROM users WHERE id = ?`,
`SystemExit` when no row comes back. -/
def ensure_user_exists (st : Store) (uid : Nat) : Except String Unit :=
  if st.users.any (fun u => u.id == uid) then .ok () else .error "User not found."

/-- Embedding of `ensure_task_exists`. -/
def ensure_task_exists (st : Store) (task_id : Nat) : Except String Unit :=
  if st.tasks.any (fun t => t.id == task_id) then .ok () else .error "Task not found."

/-- Embedding of `cmd_add_task`: validate the user, default the status name
to "new", resolve it, `INSERT INTO tasks`, return the new row id. `now` is
the wall-clock instant the store stamps into the timestamp defaults. -/
def cmd_add_task (st : Store) (uid : Nat) (title : String) (desc : Option String)
    (status_name : Option String) (now : Nat) : Except String (Store × Nat) :=
  match ensure_user_exists st uid with
  | .error e => .error e
  | .ok _ =>
    match status_id_by_name st (status_name.getD "new") with
    | .error _ => .error "Status not found."
    | .ok sid =>
      let tid := nextTaskId st
      .ok ({ st with tasks := st.tasks ++ [⟨tid, title, desc, sid, uid, now, now⟩] }, tid)

/-- The store as it stands after a `cmd_add_task` invocation: on
`SystemExit` the connection closes without a commit, so the store is
unchanged. -/
def storeAfterAddTask (st : Store) (uid : Nat) (title : String) (desc : Option String)
    (status_name : Option String) (now : Nat) : Store :=
  match cmd_add_task st uid title desc status_name now with
  | .ok p => p.1
  | .error _ => st

/-- Embedding of `cmd_update_status`: validate the task, resolve the status,
then `UPDATE tasks SET status_id = ? WHERE id = ?` — the statement writes
only the `status_id` column. -/
def cmd_update_status (st : Store) (task_id : Nat) (status_name : String) :
    Except String Store :=
  match ensure_task_exists st task_id with
  | .error e => .error e
  | .ok _ =>
    match status_id_by_name st status_name with
    | .error _ => .error "Status not found."
    | .ok sid =>
      .ok { st with
            tasks := st.tasks.map (fun t =>
              if t.id = task_id then { t with status_id := sid } else t) }

/-- One row of the `list-inprogress` result set (the SELECT list of
`cmd_list_inprogress`). -/
structure JoinedRow where
  task_id : Nat
  title : String
  user : String
  email : String
  created_at : Nat
  updated_at : Nat
deriving DecidableEq

/-- The ordering `ORDER BY t.updated_at DESC, t.id DESC` imposes: `a` may
come before `b`. -/
def rowLE (a b : JoinedRow) : Prop :=
  b.updated_at < a.updated_at ∨ (b.updated_at = a.updated_at ∧ b.task_id ≤ a.task_id)

instance : DecidableRel rowLE := fun a b => by
  unfold rowLE; infer_instance

instance : IsTotal JoinedRow rowLE := ⟨by intro a b; unfold rowLE; omega⟩

instance : IsTrans JoinedRow rowLE := ⟨by intro a b c; unfold rowLE; omega⟩

/-- The inner `JOIN status ... JOIN users ...` for one task row, with the
`WHERE s.name = ?` filter: the joined output row, when the task survives. -/
def joinRow (st : Store) (name : String) (t : TaskRow) : Option JoinedRow :=
  match st.status.find? (fun s => s.id == t.status_id),
        st.users.find? (fun u => u.id == t.user_id) with
  | some s, some u =>
      if s.name = name then
        some ⟨t.id, t.title, u.fullname, u.email, t.created_at, t.updated_at⟩
      else none
  | _, _ => none

/-- Embedding of the query of `cmd_list_inprogress`, generalised over the
status name exactly as section 4.1's `query_tasks_by_status` reads the SQL:
join, filter by name, `ORDER BY updated_at DESC, id DESC`, and append
`LIMIT` only when Python's `limit and limit > 0` is truthy. -/
def queryTasksByStatus (st : Store) (name : String) (limit : Option Int) :
    List JoinedRow :=
  match limit with
  | some l =>
    if 0 < l then
      (List.insertionSort rowLE (st.tasks.filterMap (joinRow st name))).take l.toNat
    else List.insertionSort rowLE (st.tasks.filterMap (joinRow st name))
  | none => List.insertionSort rowLE (st.tasks.filterMap (joinRow st name))

/-- Embedding of `cmd_list_inprogress`: the query at the literal status name
`'in progress'` of the SQL text. -/
def cmd_list_inprogress (st : Store) (limit : Option Int) : List JoinedRow :=
  queryTasksByStatus st "in progress" limit

/-- Embedding of `cmd_users_without_tasks`: users with no referencing task,
ordered by full name. -/
def cmd_users_without_tasks (st : Store) : List UserRow :=
  List.insertionSort (fun a b => a.fullname ≤ b.fullname)
    (st.users.filter (fun u => !(st.tasks.any (fun t => t.user_id == u.id))))

/-- The fixed status vocabulary `DEFAULT_STATUSES` of `seed.py`. -/
def DEFAULT_STATUSES : List String := ["new", "in progress", "completed"]

/-- One `INSERT OR IGNORE INTO status(name) VALUES (?)`: a no-op when the
name is already present (the unique constraint on `name`), otherwise a new
row with the next id. -/
def insertStatusIgnore (st : Store) (name : String) : Store :=
  if st.status.any (fun s => s.name == name) then st
  else { st with status := st.status ++ [⟨nextStatusId st, name⟩] }

/-- Embedding of `seed_status`: `executemany` of the ignore-insert over
`DEFAULT_STATUSES`. -/
def seed_status (st : Store) : Store := DEFAULT_STATUSES.foldl insertStatusIgnore st

/-- One `INSERT INTO users(fullname, email)` row (timestamp default modelled
as 0: wall clock is outside the deterministic fields). -/
def insertUser (st : Store) (fullname email : String) : Store :=
  { st with users := st.users ++ [⟨nextUserId st, fullname, email, 0⟩] }

/-- Embedding of `seed_users`: `n` Faker-generated `(name, email)` rows,
threading the Faker stream. -/
def seed_users (st : Store) (fake : Nat) : Nat → Store × Nat
  | 0 => (st, fake)
  | n + 1 =>
    seed_users (insertUser st (fakeName fake) (fakeEmail (fakeNext fake)))
      (fakeNext (fakeNext fake)) n

/-- Python's `int()` applied to a float: truncation toward zero. -/
def pyInt (q : ℚ) : ℤ := if 0 ≤ q then ⌊q⌋ else -⌊-q⌋

/-- The sample size of `seed_tasks`:
`max(1, int(len(user_ids) * random.uniform(0.65, 0.75)))` at draw `f`. -/
def subsetSize (nu : Nat) (f : ℚ) : Nat := max 1 (pyInt ((nu : Nat) * f)).toNat

/-- Python's `round()` (banker's rounding, ties to even), used by the spec's
wording "size = round(N_u * f)" — stated here only to compare against the
code's `int()` truncation. -/
def pyRound (q : ℚ) : ℤ :=
  if q - ⌊q⌋ < 1 / 2 then ⌊q⌋
  else if 1 / 2 < q - ⌊q⌋ then ⌊q⌋ + 1
  else if 2 ∣ ⌊q⌋ then ⌊q⌋ else ⌊q⌋ + 1

/-- Modelled from the spec: the subset size as section 4.2 words it,
`max(1, round(N_u * f))` — the refinement target `subsetSize` is compared
against. -/
def subsetSizeSpec (nu : Nat) (f : ℚ) : Nat := max 1 (pyRound ((nu : Nat) * f)).toNat

/-- Model of `random.sample(population, k)`: `k` distinct draws without
replacement (each step picks an index below the remaining population and
removes the pick), threading the random stream. -/
def pySample (rng : Nat) (l : List Nat) : Nat → List Nat × Nat
  | 0 => ([], rng)
  | k + 1 =>
    let p := randBelow rng l.length
    let x := l.getD p.1 0
    let rest := pySample p.2 (l.erase x) k
    (x :: rest.1, rest.2)

/-- The three description states the spec's section 9 names. -/
inductive DState where
  | absent
  | empty
  | populated
deriving DecidableEq

/-- Classifier of a stored description into its state. -/
def descState : Option String → DState
  | none => .absent
  | some s => if s = "" then .empty else .populated

/-- The description branch of the `seed_tasks` loop at draw `r`:
`None` when `r < 0.2`, the empty string when `r < 0.3`, else the generated
paragraph `text`. -/
def chooseDesc (r : ℚ) (text : String) : Option String :=
  if r < 1 / 5 then none else if r < 3 / 10 then some "" else some text

/-- One task row as the generation loop builds it, before the store assigns
id and timestamps. -/
structure PendingTask where
  title : String
  description : Option String
  status_id : Nat
  user_id : Nat
deriving DecidableEq

/-- The `for i in range(n)` loop of `seed_tasks`: owner via `random.choice`
over the sampled users, status via the round-robin generator
(`status_ids[i mod k]` at the i-th `next`), title from Faker, description by
`chooseDesc` at a fresh `random.random()` draw (Faker advances only when the
paragraph branch runs). -/
def genTaskRows (sids uids : List Nat) (fake rng i : Nat) : Nat → List PendingTask
  | 0 => []
  | m + 1 =>
    let c := randBelow rng uids.length
    let user_id := uids.getD c.1 0
    let status_id := sids.getD (i % sids.length) 0
    let title := fakeSentence fake
    let fake1 := fakeNext fake
    let u := rngUnit c.2
    let desc := chooseDesc u.1 (fakeParagraph fake1)
    let fake2 := if u.1 < 3 / 10 then fake1 else fakeNext fake1
    ⟨title, desc, status_id, user_id⟩ :: genTaskRows sids uids fake2 u.2 (i + 1) m

/-- The bulk `INSERT INTO tasks` of the generated rows: sequential fresh ids
from the store, timestamp defaults modelled as 0. -/
def attachTasks (st : Store) (rows : List PendingTask) : Store :=
  { st with
    tasks := st.tasks ++ rows.enum.map (fun p =>
      ⟨nextTaskId st + p.1, p.2.title, p.2.description, p.2.status_id, p.2.user_id, 0, 0⟩) }

/-- Embedding of `seed_tasks`: guard on empty referent tables, draw the
task-receiving fraction, sample the user subset, run the generation loop and
bulk-insert. -/
def seed_tasks (st : Store) (n rng fake : Nat) : Except String Store :=
  let user_ids := st.users.map (·.id)
  let status_ids := st.status.map (·.id)
  if user_ids.isEmpty || status_ids.isEmpty then
    .error "Users/status must be populated before tasks"
  else
    let d := pyUniform rng (13 / 20) (3 / 4)
    let k := subsetSize user_ids.length d.1
    let s := pySample d.2 user_ids k
    .ok (attachTasks st (genTaskRows status_ids s.1 fake s.2 0 n))

/-- The store as it stands after `seed_tasks`: the transaction never commits
on a raised error, so the store is unchanged then. -/
def storeAfterSeedTasks (st : Store) (n rng fake : Nat) : Store :=
  match seed_tasks st n rng fake with
  | .ok s => s
  | .error _ => st

/-- Embedding of the seeding pipeline of `main` (`seed.py`): seed both
streams from the one seed value, then `seed_status`, `seed_users`,
`seed_tasks` in order against the given store. -/
def mainSeed (st : Store) (seed nu nt : Nat) : Except String Store :=
  let st1 := seed_status st
  let p := seed_users st1 (rngNext seed) nu
  seed_tasks p.1 nt (rngNext (seed + 1)) p.2

/-- `main` as shipped: the seed is the constant 1337 of `seed.py`. -/
def mainRun (st : Store) (nu nt : Nat) : Except String Store := mainSeed st 1337 nu nt

/-- The deterministic per-task content of a seeding result: status
assignment, owner assignment and description state of every task row, in
order. -/
def taskPatterns : Except String Store → List (Nat × Nat × DState)
  | .ok st => st.tasks.map (fun t => (t.status_id, t.user_id, descState t.description))
  | .error _ => []

/-- A small concrete store used to exercise the commands: the three
statuses, one user, one task (timestamps 5). -/
def demoStore : Store :=
  ⟨[⟨1, "new"⟩, ⟨2, "in progress"⟩, ⟨3, "completed"⟩],
   [⟨1, "Ann Bell", "ann@example.com", 1⟩],
   [⟨1, "Write report", none, 1, 1, 5, 5⟩]⟩

/-! ### Status seeding (C9) -/

theorem insertStatusIgnore_of_mem {st : Store} {name : String}
    (h : name ∈ st.status.map (·.name)) : insertStatusIgnore st name = st := by
  rcases List.mem_map.mp h with ⟨r, hr, hname⟩
  unfold insertStatusIgnore
  rw [if_pos]
  exact List.any_eq_true.mpr ⟨r, hr, by simp [hname]⟩

theorem self_mem_insertStatusIgnore (st : Store) (name : String) :
    name ∈ (insertStatusIgnore st name).status.map (·.name) := by
  unfold insertStatusIgnore
  split
  · next h =>
    rcases List.any_eq_true.mp h with ⟨r, hr, hb⟩
    exact List.mem_map.mpr ⟨r, hr, by simpa using hb⟩
  · simp

theorem mem_insertStatusIgnore_of_mem {st : Store} {a : String} (b : String)
    (h : a ∈ st.status.map (·.name)) :
    a ∈ (insertStatusIgnore st b).status.map (·.name) := by
  unfold insertStatusIgnore
  split
  · exact h
  · simp only [List.map_append, List.mem_append]
    exact Or.inl h

/-- C9: inserting the fixed status vocabulary is idempotent — an
already-present name is a no-op (no error, no duplicate row), and running
the status-seeding step twice leaves the status table exactly as running it
once. -/
theorem seed_status_idempotent (st : Store) :
    (∀ name, name ∈ st.status.map (·.name) → insertStatusIgnore st name = st)
    ∧ seed_status (seed_status st) = seed_status st := by
  refine ⟨fun name h => insertStatusIgnore_of_mem h, ?_⟩
  have hshape : seed_status st =
      insertStatusIgnore (insertStatusIgnore (insertStatusIgnore st "new") "in progress")
        "completed" := rfl
  have hn : "new" ∈ (seed_status st).status.map (·.name) := by
    rw [hshape]
    exact mem_insertStatusIgnore_of_mem _
      (mem_insertStatusIgnore_of_mem _ (self_mem_insertStatusIgnore _ _))
  have hi : "in progress" ∈ (seed_status st).status.map (·.name) := by
    rw [hshape]
    exact mem_insertStatusIgnore_of_mem _ (self_mem_insertStatusIgnore _ _)
  have hc : "completed" ∈ (seed_status st).status.map (·.name) := by
    rw [hshape]
    exact self_mem_insertStatusIgnore _ _
  show List.foldl insertStatusIgnore (seed_status st) DEFAULT_STATUSES = seed_status st
  unfold DEFAULT_STATUSES
  simp only [List.foldl]
  rw [insertStatusIgnore_of_mem hn]
  rw [insertStatusIgnore_of_mem hi]
  rw [insertStatusIgnore_of_mem hc]

/-! ### Status resolution (C7) -/

/-- C7: resolving a status name absent from the table fails with an error
whose payload lists exactly the currently defined status names; resolving a
present name returns the id of a status row carrying that name. -/
theorem status_id_by_name_spec (st : Store) (name : String) :
    (name ∉ st.status.map (·.name) →
      ∃ names, status_id_by_name st name = .error names ∧
        ∀ s, s ∈ names ↔ s ∈ st.status.map (·.name))
    ∧ (name ∈ st.status.map (·.name) →
      ∃ row, row ∈ st.status ∧ row.name = name ∧
        status_id_by_name st name = .ok row.id) := by
  constructor
  · intro habs
    have hfind : st.status.find? (fun r => r.name == name) = none := by
      apply List.find?_eq_none.mpr
      intro r hr
      simp only [beq_iff_eq]
      intro heq
      exact habs (List.mem_map.mpr ⟨r, hr, heq⟩)
    refine ⟨List.insertionSort (· ≤ ·) (st.status.map (·.name)), ?_, ?_⟩
    · unfold status_id_by_name
      rw [hfind]
    · intro s
      simp
  · intro hmem
    cases hfind : st.status.find? (fun r => r.name == name) with
    | none =>
      exfalso
      rcases List.mem_map.mp hmem with ⟨r, hr, hname⟩
      have := List.find?_eq_none.mp hfind r hr
      simp [hname] at this
    | some row =>
      refine ⟨row, List.mem_of_find?_eq_some hfind, ?_, ?_⟩
      · simpa using List.find?_some hfind
      · unfold status_id_by_name
        rw [hfind]

/-! ### Task insertion against a missing user (C6) -/

/-- C6: inserting a task for a user id that references no existing user row
fails with a not-found error and leaves the task table untouched — same
rows, same row count. -/
theorem cmd_add_task_missing_user (st : Store) (uid : Nat) (title : String)
    (desc : Option String) (status_name : Option String) (now : Nat)
    (h : ∀ u ∈ st.users, u.id ≠ uid) :
    (∃ e, cmd_add_task st uid title desc status_name now = .error e)
    ∧ (storeAfterAddTask st uid title desc status_name now).tasks = st.tasks
    ∧ (storeAfterAddTask st uid title desc status_name now).tasks.length
        = st.tasks.length := by
  have hu : ensure_user_exists st uid = .error "User not found." := by
    unfold ensure_user_exists
    rw [if_neg]
    simp only [List.any_eq_true, beq_iff_eq, not_exists]
    intro u
    simp only [not_and]
    exact fun hm => h u hm
  have hc : cmd_add_task st uid title desc status_name now = .error "User not found." := by
    unfold cmd_add_task
    rw [hu]
  refine ⟨⟨_, hc⟩, ?_, ?_⟩ <;> unfold storeAfterAddTask <;> rw [hc]

/-- Witness for C6 at the demo store and the absent user id 99. -/
theorem cmd_add_task_missing_user_demo :
    (∃ e, cmd_add_task demoStore 99 "Task" none none 7 = .error e)
    ∧ (storeAfterAddTask demoStore 99 "Task" none none 7).tasks = demoStore.tasks
    ∧ (storeAfterAddTask demoStore 99 "Task" none none 7).tasks.length
        = demoStore.tasks.length :=
  cmd_add_task_missing_user demoStore 99 "Task" none none 7 (by decide)

/-! ### Task generation against empty referent tables (C10) -/

/-- C10: when the users table or the status table is empty, `seed_tasks`
raises before generating anything and inserts no task row. -/
theorem seed_tasks_empty_referents (st : Store) (n rng fake : Nat)
    (h : st.users = [] ∨ st.status = []) :
    (∃ e, seed_tasks st n rng fake = .error e)
    ∧ (storeAfterSeedTasks st n rng fake).tasks = st.tasks := by
  have hc : seed_tasks st n rng fake =
      .error "Users/status must be populated before tasks" := by
    unfold seed_tasks
    rcases h with h | h <;> simp [h]
  exact ⟨⟨_, hc⟩, by unfold storeAfterSeedTasks; rw [hc]⟩

/-- Witness for C10 at the fresh (fully empty) store. -/
theorem seed_tasks_empty_referents_demo :
    (∃ e, seed_tasks freshStore 5 0 0 = .error e)
    ∧ (storeAfterSeedTasks freshStore 5 0 0).tasks = freshStore.tasks :=
  seed_tasks_empty_referents freshStore 5 0 0 (Or.inl rfl)

/-! ### Status update and the timestamp columns (C1) -/

/-- C1: at a concrete store holding one task with `updated_at = 5`, the
update command resolves and writes the new `status_id`, but the row's
`updated_at` (and `created_at`) keep their prior values — the `UPDATE`
statement of `cmd_update_status` touches only the `status_id` column, so
`updated_at` is not set to the current time and does not increase. -/
theorem cmd_update_status_keeps_timestamps :
    ∃ st', cmd_update_status demoStore 1 "completed" = .ok st'
      ∧ st'.tasks.map (·.status_id) = [3]
      ∧ st'.tasks.map (·.updated_at) = demoStore.tasks.map (·.updated_at)
      ∧ st'.tasks.map (·.created_at) = demoStore.tasks.map (·.created_at)
      ∧ st'.tasks.length = demoStore.tasks.length :=
  ⟨_, rfl, by decide, by decide, by decide, by decide⟩

/-! ### Determinism of the synthetic generator (C2) -/

/-- C2: two runs of the seeding pipeline with the same seed and the same
`(N_u, N_t)` against fresh stores produce identical deterministic content —
the same status assignment, owner assignment and description state for
every generated task. -/
theorem seeding_deterministic (s1 s2 : Store) (seed nu nt : Nat)
    (h1 : s1 = freshStore) (h2 : s2 = freshStore) :
    taskPatterns (mainSeed s1 seed nu nt) = taskPatterns (mainSeed s2 seed nu nt) := by
  subst h1
  subst h2
  rfl

/-- Witness for C2 at the shipped parameters: seed 1337, 12 users, 40
tasks. -/
theorem seeding_deterministic_demo :
    taskPatterns (mainSeed freshStore 1337 12 40)
      = taskPatterns (mainSeed freshStore 1337 12 40) :=
  seeding_deterministic freshStore freshStore 1337 12 40 rfl rfl

/-! ### Description-state selection (C8) -/

/-- C8: the description of a generated task is a function of the uniform
draw `r` in `[0, 1)` with three mutually exclusive, exhaustive states —
absent exactly when `r < 0.2`, present-but-empty exactly when
`0.2 ≤ r < 0.3`, present-and-populated exactly when `0.3 ≤ r` (the paragraph
text being non-empty). -/
theorem chooseDesc_trichotomy (r : ℚ) (text : String) (h0 : 0 ≤ r) (h1 : r < 1)
    (ht : text ≠ "") :
    (descState (chooseDesc r text) = .absent ↔ r < 1 / 5)
    ∧ (descState (chooseDesc r text) = .empty ↔ 1 / 5 ≤ r ∧ r < 3 / 10)
    ∧ (descState (chooseDesc r text) = .populated ↔ 3 / 10 ≤ r) := by
  have hemp : descState (some "") = DState.empty := by simp [descState]
  have hpop : descState (some text) = DState.populated := by simp [descState, ht]
  unfold chooseDesc
  split_ifs with ha hb
  · show (descState none = _ ↔ _) ∧ (descState none = _ ↔ _) ∧ (descState none = _ ↔ _)
    refine ⟨⟨fun _ => ha, fun _ => rfl⟩, ?_, ?_⟩
    · exact ⟨fun h => DState.noConfusion h, fun h => by linarith [h.1]⟩
    · exact ⟨fun h => DState.noConfusion h, fun h => by linarith⟩
  · rw [hemp]
    push_neg at ha
    refine ⟨?_, ⟨fun _ => ⟨ha, hb⟩, fun _ => rfl⟩, ?_⟩
    · exact ⟨fun h => DState.noConfusion h, fun h => by linarith⟩
    · exact ⟨fun h => DState.noConfusion h, fun h => by linarith⟩
  · rw [hpop]
    push_neg at ha hb
    refine ⟨?_, ?_, ⟨fun _ => hb, fun _ => rfl⟩⟩
    · exact ⟨fun h => DState.noConfusion h, fun h => by linarith⟩
    · exact ⟨fun h => DState.noConfusion h, fun h => by linarith [h.2]⟩

/-- Witness for C8 at the draw `r = 1/2` and a generated paragraph. -/
theorem chooseDesc_trichotomy_demo :
    (descState (chooseDesc (1 / 2 : ℚ) "Paragraph 1") = .absent ↔ (1 / 2 : ℚ) < 1 / 5)
    ∧ (descState (chooseDesc (1 / 2 : ℚ) "Paragraph 1") = .empty ↔
        1 / 5 ≤ (1 / 2 : ℚ) ∧ (1 / 2 : ℚ) < 3 / 10)
    ∧ (descState (chooseDesc (1 / 2 : ℚ) "Paragraph 1") = .populated ↔
        3 / 10 ≤ (1 / 2 : ℚ)) :=
  chooseDesc_trichotomy (1 / 2) "Paragraph 1" (by norm_num) (by norm_num) (by decide)

/-! ### The status-filtered, ordered, limited query (C5) -/

theorem joinRow_some {st : Store} {name : String} {t : TaskRow} {r : JoinedRow}
    (h : joinRow st name t = some r) :
    t.id = r.task_id ∧ t.updated_at = r.updated_at
    ∧ ∃ s ∈ st.status, s.id = t.status_id ∧ s.name = name := by
  unfold joinRow at h
  cases hs : st.status.find? (fun s => s.id == t.status_id) with
  | none => simp [hs] at h
  | some s =>
    cases hu : st.users.find? (fun u => u.id == t.user_id) with
    | none => simp [hs, hu] at h
    | some u =>
      simp only [hs, hu] at h
      by_cases hn : s.name = name
      · rw [if_pos hn] at h
        cases h
        refine ⟨rfl, rfl, s, List.mem_of_find?_eq_some hs, ?_, hn⟩
        simpa using List.find?_some hs
      · rw [if_neg hn] at h
        cases h

/-- C5: the query behind `list-inprogress` returns only tasks whose status
name matches the queried name, sorted by `updated_at` descending with ties
broken by task id descending; a positive limit caps the row count at the
limit and an absent, zero or negative limit leaves the result unbounded. -/
theorem queryTasksByStatus_spec (st : Store) (name : String) (limit : Option Int) :
    (∀ r ∈ queryTasksByStatus st name limit,
      ∃ t ∈ st.tasks, t.id = r.task_id ∧
        ∃ s ∈ st.status, s.id = t.status_id ∧ s.name = name)
    ∧ List.Sorted rowLE (queryTasksByStatus st name limit)
    ∧ (∀ l : Int, limit = some l → 0 < l →
        (queryTasksByStatus st name limit).length ≤ l.toNat)
    ∧ ((∀ l : Int, limit = some l → l ≤ 0) →
        queryTasksByStatus st name limit = queryTasksByStatus st name none) := by
  have hsl : (queryTasksByStatus st name limit).Sublist
      (List.insertionSort rowLE (st.tasks.filterMap (joinRow st name))) := by
    unfold queryTasksByStatus
    cases limit with
    | none => exact List.Sublist.refl _
    | some l =>
      by_cases hl : 0 < l
      · simp only [if_pos hl]
        exact List.take_sublist _ _
      · simp only [if_neg hl]
        exact List.Sublist.refl _
  refine ⟨?_, ?_, ?_, ?_⟩
  · intro r hr
    have hr2 : r ∈ st.tasks.filterMap (joinRow st name) := by
      have := hsl.subset hr
      simpa using this
    rcases List.mem_filterMap.mp hr2 with ⟨t, ht, hj⟩
    rcases joinRow_some hj with ⟨hid, _, s, hsmem, hsid, hsname⟩
    exact ⟨t, ht, hid, s, hsmem, hsid, hsname⟩
  · exact (List.sorted_insertionSort rowLE _).sublist hsl
  · intro l hl hpos
    subst hl
    unfold queryTasksByStatus
    simp only [if_pos hpos]
    rw [List.length_take]
    exact min_le_left _ _
  · intro hnp
    cases limit with
    | none => rfl
    | some l =>
      have hle := hnp l rfl
      unfold queryTasksByStatus
      dsimp only
      rw [if_neg (by omega)]

/-! ### The task-receiving user subset (C3) -/

theorem pySample_length : ∀ (k rng : Nat) (l : List Nat), k ≤ l.length →
    ((pySample rng l k).1).length = k := by
  intro k
  induction k with
  | zero => intro rng l h; rfl
  | succ k ih =>
    intro rng l h
    have hpos : 0 < l.length := by omega
    have hlt : rngNext rng % l.length < l.length := Nat.mod_lt _ hpos
    have hx : l.getD (rngNext rng % l.length) 0 ∈ l := by
      rw [List.getD_eq_getElem l 0 hlt]
      exact List.getElem_mem hlt
    simp only [pySample, randBelow]
    rw [List.length_cons]
    rw [ih (rngNext rng) _ (by rw [List.length_erase_of_mem hx]; omega)]

theorem pySample_subset : ∀ (k rng : Nat) (l : List Nat), k ≤ l.length →
    ∀ a ∈ (pySample rng l k).1, a ∈ l := by
  intro k
  induction k with
  | zero => intro rng l _ a ha; simp [pySample] at ha
  | succ k ih =>
    intro rng l h a ha
    have hpos : 0 < l.length := by omega
    have hlt : rngNext rng % l.length < l.length := Nat.mod_lt _ hpos
    have hx : l.getD (rngNext rng % l.length) 0 ∈ l := by
      rw [List.getD_eq_getElem l 0 hlt]
      exact List.getElem_mem hlt
    simp only [pySample, randBelow] at ha
    rcases List.mem_cons.mp ha with h1 | h1
    · subst h1; exact hx
    · exact List.mem_of_mem_erase
        (ih (rngNext rng) _ (by rw [List.length_erase_of_mem hx]; omega) a h1)

theorem pySample_nodup : ∀ (k rng : Nat) (l : List Nat), k ≤ l.length → l.Nodup →
    ((pySample rng l k).1).Nodup := by
  intro k
  induction k with
  | zero => intro rng l _ _; simp [pySample]
  | succ k ih =>
    intro rng l h hnd
    have hpos : 0 < l.length := by omega
    have hlt : rngNext rng % l.length < l.length := Nat.mod_lt _ hpos
    have hx : l.getD (rngNext rng % l.length) 0 ∈ l := by
      rw [List.getD_eq_getElem l 0 hlt]
      exact List.getElem_mem hlt
    simp only [pySample, randBelow]
    refine List.nodup_cons.mpr ⟨?_,
      ih (rngNext rng) _ (by rw [List.length_erase_of_mem hx]; omega) (hnd.erase _)⟩
    intro hmem
    exact hnd.not_mem_erase
      (pySample_subset k (rngNext rng) _
        (by rw [List.length_erase_of_mem hx]; omega) _ hmem)

theorem subsetSize_le {nu : Nat} {f : ℚ} (h1 : 1 ≤ nu) (hf0 : 0 ≤ f) (hf1 : f ≤ 1) :
    subsetSize nu f ≤ nu := by
  have hq0 : (0 : ℚ) ≤ (nu : Nat) * f := by positivity
  unfold subsetSize pyInt
  rw [if_pos hq0]
  have hle : ⌊((nu : Nat) : ℚ) * f⌋ ≤ (nu : Int) := by
    have : ((nu : Nat) : ℚ) * f ≤ ((nu : Nat) : ℚ) := by
      nlinarith [Nat.cast_nonneg (α := ℚ) nu]
    have h2 := Int.floor_le_floor this
    rwa [Int.floor_natCast] at h2
  exact max_le h1 (Int.toNat_le.mpr hle)

/-- C3 (amended): the sampled task-receiving subset `S` consists of
`max(1, int(N_u * f))` distinct users — `int()` truncation, not rounding —
and consequently, for `f ∈ [0.65, 0.75]`, the count of users left outside
`S` lies within `[0.25 * N_u - 1, 0.35 * N_u + 1]`. -/
theorem seed_subset_size_bounds (rng : Nat) (uids : List Nat) (f : ℚ)
    (hnd : uids.Nodup) (hlen : 1 ≤ uids.length)
    (hf1 : 13 / 20 ≤ f) (hf2 : f ≤ 3 / 4) :
    ((pySample rng uids (subsetSize uids.length f)).1.length
        = subsetSize uids.length f)
    ∧ (pySample rng uids (subsetSize uids.length f)).1.Nodup
    ∧ ((uids.length : ℚ) / 4 - 1 ≤
        ((uids.length - (pySample rng uids (subsetSize uids.length f)).1.length : ℕ) : ℚ))
    ∧ (((uids.length - (pySample rng uids (subsetSize uids.length f)).1.length : ℕ) : ℚ)
        ≤ 7 / 20 * (uids.length : ℚ) + 1) := by
  have hf0 : (0 : ℚ) ≤ f := by linarith
  have hfle1 : f ≤ 1 := by linarith
  have hkle : subsetSize uids.length f ≤ uids.length := subsetSize_le hlen hf0 hfle1
  have hL := pySample_length (subsetSize uids.length f) rng uids hkle
  have hq0 : (0 : ℚ) ≤ (uids.length : Nat) * f := by positivity
  have hsz : subsetSize uids.length f = max 1 (⌊((uids.length : Nat) : ℚ) * f⌋).toNat := by
    unfold subsetSize pyInt
    rw [if_pos hq0]
  have hfl0 : 0 ≤ ⌊((uids.length : Nat) : ℚ) * f⌋ := Int.floor_nonneg.mpr hq0
  have hcast : ((⌊((uids.length : Nat) : ℚ) * f⌋.toNat : ℕ) : ℚ)
      = ((⌊((uids.length : Nat) : ℚ) * f⌋ : ℤ) : ℚ) := by
    exact_mod_cast congrArg (fun z : ℤ => (z : ℚ)) (Int.toNat_of_nonneg hfl0)
  have hflo : ((⌊((uids.length : Nat) : ℚ) * f⌋ : ℤ) : ℚ) ≤ (uids.length : ℚ) * f :=
    Int.floor_le _
  have hfhi : (uids.length : ℚ) * f - 1 < ((⌊((uids.length : Nat) : ℚ) * f⌋ : ℤ) : ℚ) :=
    Int.sub_one_lt_floor _
  have hone : (1 : ℚ) ≤ (uids.length : ℚ) := by exact_mod_cast hlen
  have hprod1 : (uids.length : ℚ) * (13 / 20) ≤ (uids.length : ℚ) * f :=
    mul_le_mul_of_nonneg_left hf1 (by linarith)
  have hprod2 : (uids.length : ℚ) * f ≤ (uids.length : ℚ) * (3 / 4) :=
    mul_le_mul_of_nonneg_left hf2 (by linarith)
  have hmax : ((subsetSize uids.length f : ℕ) : ℚ)
      = max 1 ((⌊((uids.length : Nat) : ℚ) * f⌋.toNat : ℕ) : ℚ) := by
    rw [hsz]
    push_cast [Nat.cast_max]
    rfl
  have hkub : ((subsetSize uids.length f : ℕ) : ℚ) ≤ 3 / 4 * (uids.length : ℚ) + 1 := by
    rw [hmax, hcast]
    exact max_le (by linarith) (by linarith)
  have hklb : 13 / 20 * (uids.length : ℚ) - 1 ≤ ((subsetSize uids.length f : ℕ) : ℚ) := by
    rw [hmax, hcast]
    exact le_trans (by linarith) (le_max_right 1 _)
  have hsub : ((uids.length - subsetSize uids.length f : ℕ) : ℚ)
      = (uids.length : ℚ) - (subsetSize uids.length f : ℚ) := by
    rw [Nat.cast_sub hkle]
  refine ⟨hL, pySample_nodup _ rng uids hkle hnd, ?_, ?_⟩ <;> rw [hL, hsub] <;> linarith

/-- Counterexample for C3 as stated: at `N_u = 10` and `f = 3/4` the code's
subset size (truncation) is 7 while the spec's `max(1, round(N_u * f))` is
8, so the sampled subset does not have the size the claim asserts. -/
theorem subsetSize_ne_round :
    subsetSize 10 (3 / 4) = 7 ∧ subsetSizeSpec 10 (3 / 4) = 8
    ∧ (pySample 1 [1, 2, 3, 4, 5, 6, 7, 8, 9, 10] (subsetSize 10 (3 / 4))).1.length
        ≠ subsetSizeSpec 10 (3 / 4) := by
  with_unfolding_all decide

/-- Ten distinct user ids, a concrete population for the sampling witness. -/
def demoUserIds : List Nat := [1, 2, 3, 4, 5, 6, 7, 8, 9, 10]

/-- Witness for C3 at ten users and the draw `f = 7/10`. -/
theorem seed_subset_size_bounds_demo :
    ((pySample 1 demoUserIds (subsetSize demoUserIds.length (7 / 10))).1.length
        = subsetSize demoUserIds.length (7 / 10))
    ∧ (pySample 1 demoUserIds (subsetSize demoUserIds.length (7 / 10))).1.Nodup
    ∧ ((demoUserIds.length : ℚ) / 4 - 1 ≤
        ((demoUserIds.length
          - (pySample 1 demoUserIds
              (subsetSize demoUserIds.length (7 / 10))).1.length : ℕ) : ℚ))
    ∧ (((demoUserIds.length
          - (pySample 1 demoUserIds
              (subsetSize demoUserIds.length (7 / 10))).1.length : ℕ) : ℚ)
        ≤ 7 / 20 * (demoUserIds.length : ℚ) + 1) :=
  seed_subset_size_bounds 1 demoUserIds (7 / 10)
    (by decide) (by decide) (by norm_num) (by norm_num)

/-! ### Round-robin status assignment (C4) -/

theorem genTaskRows_length (sids uids : List Nat) :
    ∀ (m fake rng i : Nat), (genTaskRows sids uids fake rng i m).length = m := by
  intro m
  induction m with
  | zero => intro fake rng i; rfl
  | succ m ih =>
    intro fake rng i
    simp only [genTaskRows]
    rw [List.length_cons, ih]

theorem genTaskRows_status_map (sids uids : List Nat) :
    ∀ (m fake rng i : Nat),
      (genTaskRows sids uids fake rng i m).map (·.status_id)
        = (List.range m).map (fun j => sids.getD ((i + j) % sids.length) 0) := by
  intro m
  induction m with
  | zero => intro fake rng i; rfl
  | succ m ih =>
    intro fake rng i
    simp only [genTaskRows, List.map_cons]
    rw [ih, List.range_succ_eq_map, List.map_cons, List.map_map]
    congr 1
    have hfun : (fun j => sids.getD ((i + 1 + j) % sids.length) 0)
        = ((fun j => sids.getD ((i + j) % sids.length) 0) ∘ Nat.succ) := by
      funext j
      simp only [Function.comp_apply, Nat.succ_eq_add_one]
      congr 2
      omega
    rw [hfun]

theorem attachTasks_drop (st : Store) (rows : List PendingTask) :
    (attachTasks st rows).tasks.drop st.tasks.length
      = rows.enum.map (fun p =>
          (⟨nextTaskId st + p.1, p.2.title, p.2.description, p.2.status_id,
            p.2.user_id, 0, 0⟩ : TaskRow)) := by
  unfold attachTasks
  exact List.drop_left _ _

theorem attachTasks_status_map (st : Store) (rows : List PendingTask) :
    ((attachTasks st rows).tasks.drop st.tasks.length).map (·.status_id)
      = rows.map (·.status_id) := by
  rw [attachTasks_drop, List.map_map]
  rw [show ((fun t : TaskRow => t.status_id) ∘ (fun p : Nat × PendingTask =>
      (⟨nextTaskId st + p.1, p.2.title, p.2.description, p.2.status_id,
        p.2.user_id, 0, 0⟩ : TaskRow)))
    = ((fun t : PendingTask => t.status_id) ∘ Prod.snd) from rfl]
  rw [← List.map_map, List.enum_map_snd]

theorem seed_tasks_ok_shape {st st' : Store} {n rng fake : Nat}
    (hok : seed_tasks st n rng fake = .ok st') :
    ∃ uidsS rng2,
      st' = attachTasks st (genTaskRows (st.status.map (·.id)) uidsS fake rng2 0 n) := by
  unfold seed_tasks at hok
  by_cases hg : ((st.users.map (·.id)).isEmpty || (st.status.map (·.id)).isEmpty) = true
  · rw [if_pos hg] at hok
    cases hok
  · rw [if_neg hg] at hok
    exact ⟨_, _, (Except.ok.inj hok).symm⟩

theorem count_residues (n k j : Nat) (hj : j < k) :
    (List.range n).countP (fun i => i % k == j) = n / k + if j < n % k then 1 else 0 := by
  have hk : 0 < k := by omega
  have h1 : (List.range n).countP (fun i => i % k == j)
      = Nat.count (fun i => i ≡ j [MOD k]) n := by
    show _ = (List.range n).countP _
    apply List.countP_congr
    intro a _
    simp [Nat.ModEq, Nat.mod_eq_of_lt hj]
  rw [h1, Nat.count_modEq_card n hk j, Nat.mod_eq_of_lt hj]

theorem ceil_div_of_mod_ne_zero (n k : Nat) (hk : 0 < k) (h : n % k ≠ 0) :
    (n + k - 1) / k = n / k + 1 := by
  have hd := Nat.div_add_mod n k
  have hm : n % k < k := Nat.mod_lt _ hk
  have hmul : k * (n / k + 1) = k * (n / k) + k := by ring
  have h1 : n + k - 1 = k * (n / k + 1) + (n % k - 1) := by omega
  rw [h1, Nat.mul_add_div hk, Nat.div_eq_of_lt (by omega : n % k - 1 < k)]

/-- C4: the generator assigns the i-th generated task the status at index
`i mod k` of the status table read in insertion order (`k` statuses), so
each status id occurs either `floor(N_t / k)` or `ceil(N_t / k)` times among
the generated tasks. -/
theorem seed_tasks_round_robin (st st' : Store) (n rng fake j : Nat)
    (hok : seed_tasks st n rng fake = .ok st')
    (hnd : (st.status.map (·.id)).Nodup)
    (hj : j < st.status.length) :
    ((st'.tasks.drop st.tasks.length).length = n)
    ∧ (∀ i, i < n →
        ((st'.tasks.drop st.tasks.length).get? i).map (·.status_id)
          = some ((st.status.map (·.id)).getD (i % st.status.length) 0))
    ∧ (((st'.tasks.drop st.tasks.length).filter
          (fun t => t.status_id == (st.status.map (·.id)).getD j 0)).length
          = n / st.status.length
       ∨ ((st'.tasks.drop st.tasks.length).filter
          (fun t => t.status_id == (st.status.map (·.id)).getD j 0)).length
          = (n + st.status.length - 1) / st.status.length) := by
  obtain ⟨uidsS, rng2, rfl⟩ := seed_tasks_ok_shape hok
  have hklen : (st.status.map (·.id)).length = st.status.length := List.length_map _ _
  have hk : 0 < st.status.length := by omega
  have hjk : j < (st.status.map (·.id)).length := by omega
  have hmap : ((attachTasks st
        (genTaskRows (st.status.map (·.id)) uidsS fake rng2 0 n)).tasks.drop
        st.tasks.length).map (·.status_id)
      = (List.range n).map
          (fun i => (st.status.map (·.id)).getD (i % st.status.length) 0) := by
    rw [attachTasks_status_map, genTaskRows_status_map]
    congr 1
    funext i
    rw [Nat.zero_add, hklen]
  have hlen : ((attachTasks st
      (genTaskRows (st.status.map (·.id)) uidsS fake rng2 0 n)).tasks.drop
      st.tasks.length).length = n := by
    have h2 := congrArg List.length hmap
    simpa using h2
  refine ⟨hlen, ?_, ?_⟩
  · intro i hi
    rw [← List.get?_map, hmap, List.get?_map, List.get?_range hi]
    rfl
  · rw [← List.countP_eq_length_filter]
    rw [show (fun t : TaskRow => t.status_id == (st.status.map (·.id)).getD j 0)
        = ((fun x => x == (st.status.map (·.id)).getD j 0) ∘ (fun t : TaskRow => t.status_id))
      from rfl]
    rw [← List.countP_map, hmap, List.countP_map]
    have hc : (List.range n).countP
        ((fun x => x == (st.status.map (·.id)).getD j 0)
          ∘ (fun i => (st.status.map (·.id)).getD (i % st.status.length) 0))
        = (List.range n).countP (fun i => i % st.status.length == j) := by
      apply List.countP_congr
      intro a _
      have hmod : a % st.status.length < (st.status.map (·.id)).length := by
        have := Nat.mod_lt a hk
        omega
      simp only [Function.comp_apply, beq_iff_eq]
      rw [List.getD_eq_getElem _ 0 hmod, List.getD_eq_getElem _ 0 hjk]
      rw [List.Nodup.getElem_inj_iff hnd]
    rw [hc, count_residues n st.status.length j (by omega)]
    by_cases hcase : j < n % st.status.length
    · right
      rw [if_pos hcase, ceil_div_of_mod_ne_zero n st.status.length hk (by omega)]
    · left
      rw [if_neg hcase]
      omega

/-- A store seeded with the three statuses and two generated users, the
starting state for the round-robin witness. -/
def seededStore : Store := (seed_users (seed_status freshStore) 7 2).1

/-- Witness for C4: four tasks generated over the three statuses of the
seeded demo store, checked at status index 0. -/
theorem seed_tasks_round_robin_demo :
    (((storeAfterSeedTasks seededStore 4 11 13).tasks.drop
        seededStore.tasks.length).length = 4)
    ∧ (∀ i, i < 4 →
        (((storeAfterSeedTasks seededStore 4 11 13).tasks.drop
            seededStore.tasks.length).get? i).map (·.status_id)
          = some ((seededStore.status.map (·.id)).getD
              (i % seededStore.status.length) 0))
    ∧ ((((storeAfterSeedTasks seededStore 4 11 13).tasks.drop
          seededStore.tasks.length).filter
          (fun t => t.status_id == (seededStore.status.map (·.id)).getD 0 0)).length
          = 4 / seededStore.status.length
       ∨ (((storeAfterSeedTasks seededStore 4 11 13).tasks.drop
          seededStore.tasks.length).filter
          (fun t => t.status_id == (seededStore.status.map (·.id)).getD 0 0)).length
          = (4 + seededStore.status.length - 1) / seededStore.status.length) :=
  seed_tasks_round_robin seededStore (storeAfterSeedTasks seededStore 4 11 13)
    4 11 13 0 rfl (by decide) (by decide)

end TaskDB
